import Mathlib

/-!
Shallow embedding of the `mewpull/graph` repository: the generic graph
interfaces and the `Copy` algorithm (package `graph`, `src/unnamed/part_000`),
the sparse directed store (`src/simple/directed.go`), the sparse undirected
store (`src/simple/undirected.go`) and the dense adjacency-matrix store
(package `simple`, `src/unnamed/part_000`).

Modelling choices:
* Go `float64` edge weights are modelled as `ℚ`.  The stores only store
  weights and compare them with `==` (via `isSame`); no arithmetic is ever
  performed on a weight, so exact rational values are a faithful model for
  every weight a claim mentions (none involves NaN or rounding).
* A Go node (`graph.Node`) is modelled by its integer ID (`Int`): the stores
  never inspect a node beyond `ID()`.
* Go maps `map[int]V` are modelled as association lists (`IMap`), with
  `mget`, `minsert` (assignment), `merase` (`delete`) and `mmodify`
  (mutation of an inner map fetched from an outer map; absent key = no-op,
  matching `delete` on a `nil` map).
* `intsets.Sparse` (the free/used ID sets) is modelled as a strictly
  ascending `List Int`; `TakeMin` takes the head, `Max` the last element
  (`minInt` when empty), exactly the documented `intsets` behaviour.
* A Go call that can panic is modelled as `Except (String × σ) α`: the
  error value carries the state of the store at the instant of the panic,
  so "no partial mutation before the panic" is a provable statement.
* The `mat64.Dense` collaborator is modelled as a row-major `List ℚ`
  with the documented `mat64` contract: `At` and `Set` panic (here:
  return `none` / `Except.error`) when an index is out of range.
-/

namespace GraphModel

/-- A concrete edge value: `simple.Edge` is `{F, T graph.Node; W float64}`,
with nodes modelled by their IDs. -/
structure GEdge where
  f : Int
  t : Int
  w : ℚ
deriving DecidableEq

/-- Association-list model of a Go `map[int]α`. -/
abbrev IMap (α : Type) : Type := List (Int × α)

/-- Map lookup: `m[k]` (the `, ok` form gives `Option`). -/
def mget {α : Type} : IMap α → Int → Option α
  | [], _ => none
  | (k', v) :: m, k => if k = k' then some v else mget m k

/-- Go `delete(m, k)`. -/
def merase {α : Type} : IMap α → Int → IMap α
  | [], _ => []
  | (k', v) :: m, k => if k = k' then merase m k else (k', v) :: merase m k

/-- Go map assignment `m[k] = v`. -/
def minsert {α : Type} (m : IMap α) (k : Int) (v : α) : IMap α :=
  (k, v) :: merase m k

/-- Mutate the value stored under `k` in place; if `k` is absent this is a
no-op (Go: fetching a missing inner map yields `nil`, and `delete` on a
`nil` map is a no-op). -/
def mmodify {α : Type} (m : IMap α) (k : Int) (fn : α → α) : IMap α :=
  match mget m k with
  | none => m
  | some v => minsert m k (fn v)

/-- Key presence: the `_, ok := m[k]` test. -/
def mhas {α : Type} (m : IMap α) (k : Int) : Bool :=
  (mget m k).isSome

/-- The keys of a map (Go `for k := range m`). -/
def mkeys {α : Type} (m : IMap α) : List Int :=
  m.map (fun p => p.1)

/-- Keys of the inner map stored under `id` (empty when absent, matching
iteration over a `nil` map). -/
def mkeysOf {α : Type} (m : IMap (IMap α)) (id : Int) : List Int :=
  match mget m id with
  | none => []
  | some inner => mkeys inner

/-- Two-level lookup `m[u][v]` (missing outer key yields the zero value
`nil` of the inner map, on which lookup fails). -/
def mget2 {α : Type} (m : IMap (IMap α)) (u v : Int) : Option α :=
  match mget m u with
  | none => none
  | some inner => mget inner v

/-- Strictly-sorted-list model of `intsets.Sparse`: ordered insert. -/
def sinsert : List Int → Int → List Int
  | [], x => [x]
  | y :: ys, x =>
    if x < y then x :: y :: ys
    else if x = y then y :: ys
    else y :: sinsert ys x

/-- `intsets.Sparse.Remove`. -/
def sremove (s : List Int) (x : Int) : List Int :=
  s.filter (fun y => decide (y ≠ x))

/-- `intsets.Sparse.Has`. -/
def shas (s : List Int) (x : Int) : Bool :=
  s.contains x

/-- `intsets.Sparse.TakeMin`: the minimum element of a sorted set together
with the set with that element removed, `none` when empty. -/
def stakeMin : List Int → Option (Int × List Int)
  | [] => none
  | x :: xs => some (x, xs)

/-- `intsets.Sparse.Max` with the given value for the empty set
(`intsets` returns `MinInt` there). -/
def smax (s : List Int) (d : Int) : Int :=
  match s.getLast? with
  | none => d
  | some x => x

/-- Go platform `maxInt` for 64-bit targets.  The constant `maxInt` of the
`simple` package is declared outside the files under `src/`; it is the
standard `int(^uint(0) >> 1)`. -/
def maxInt : Int := 2 ^ 63 - 1

/-- `intsets.MinInt` for 64-bit targets. -/
def minInt : Int := -(2 ^ 63)

/-- Modelled from the spec: the helper `isSame` of the `simple` package is
not under `src/`; per the spec, off-diagonal absence "compares equal to the
configured absent sentinel", so `isSame` is weight equality.  (The real
helper additionally treats two NaNs as equal; no claim involves NaN.) -/
def isSame (a b : ℚ) : Bool :=
  decide (a = b)

/-! ## Dense directed matrix store (`simple.DirectedMatrix`)

The `nodes []graph.Node` field is `nil` after `NewDirectedMatrix` (the only
constructor the claims use) and is consulted by no modelled operation, so it
is omitted from the state. -/

structure DirectedMatrix where
  rows : Nat
  mat : List ℚ
  self : ℚ
  absent : ℚ
deriving DecidableEq

/-- The diagonal-filling loop of `NewDirectedMatrix`:
`for i := 0; i < len(mat); i += n + 1 { mat[i] = self }`.  The `fuel`
argument (passed as the matrix size) only bounds the number of iterations
so the recursion is structural; each iteration advances `i` by `n + 1 ≥ 1`,
so a fuel of `len(mat)` is never exhausted before the loop guard
`i < len(mat)` fails. -/
def diagLoop (n : Nat) (self : ℚ) : Nat → List ℚ → Nat → List ℚ
  | 0, m, _ => m
  | fuel + 1, m, i =>
    if i < m.length then diagLoop n self fuel (m.set i self) (i + (n + 1)) else m

/-- `NewDirectedMatrix(n, init, self, absent)`. -/
def newDirectedMatrix (n : Nat) (init self absent : ℚ) : DirectedMatrix :=
  let m0 : List ℚ := List.replicate (n * n) 0
  let m1 : List ℚ := if init ≠ 0 then List.replicate (n * n) init else m0
  { rows := n, mat := diagLoop n self (n * n) m1 0, self := self, absent := absent }

/-- `DirectedMatrix.has` (also `Has`): `0 <= int(id) && int(id) < r`. -/
def dmHas (g : DirectedMatrix) (id : Int) : Bool :=
  decide (0 ≤ id) && decide (id < (g.rows : Int))

/-- `mat64.Dense.At(i, j)`: the cell, or a panic (`none`) when an index is
out of range — the documented `mat64` contract for the external matrix
collaborator. -/
def dmAt (g : DirectedMatrix) (i j : Int) : Option ℚ :=
  if 0 ≤ i ∧ i < (g.rows : Int) ∧ 0 ≤ j ∧ j < (g.rows : Int) then
    g.mat.get? (i.toNat * g.rows + j.toNat)
  else
    none

/-- `DirectedMatrix.Weight`. -/
def dmWeight (g : DirectedMatrix) (x y : Int) : ℚ × Bool :=
  if x = y then (g.self, true)
  else if dmHas g x && dmHas g y then ((dmAt g x y).getD 0, true)
  else (g.absent, false)

/-- `DirectedMatrix.SetEdge`: panics on a self loop (before touching the
matrix), and panics inside `mat64.Set` when an endpoint is out of range. -/
def dmSetEdge (g : DirectedMatrix) (e : GEdge) :
    Except (String × DirectedMatrix) DirectedMatrix :=
  if e.f = e.t then
    .error ("simple: set illegal edge", g)
  else if 0 ≤ e.f ∧ e.f < (g.rows : Int) ∧ 0 ≤ e.t ∧ e.t < (g.rows : Int) then
    .ok { g with mat := g.mat.set (e.f.toNat * g.rows + e.t.toNat) e.w }
  else
    .error ("mat64: index out of range", g)

/-- `DirectedMatrix.RemoveEdge`: silent no-op when either endpoint is out of
range, otherwise writes the absent sentinel. -/
def dmRemoveEdge (g : DirectedMatrix) (e : GEdge) : DirectedMatrix :=
  if ¬ dmHas g e.f then g
  else if ¬ dmHas g e.t then g
  else { g with mat := g.mat.set (e.f.toNat * g.rows + e.t.toNat) g.absent }

/-- `DirectedMatrix.From`. -/
def dmFrom (g : DirectedMatrix) (id : Int) : List Int :=
  if ¬ dmHas g id then []
  else
    ((List.range g.rows).filter (fun (j : Nat) =>
        decide ((j : Int) ≠ id) && !(isSame ((dmAt g id (j : Int)).getD 0) g.absent))).map
      (fun (j : Nat) => (j : Int))

/-- `DirectedMatrix.To`. -/
def dmTo (g : DirectedMatrix) (id : Int) : List Int :=
  if ¬ dmHas g id then []
  else
    ((List.range g.rows).filter (fun (i : Nat) =>
        decide ((i : Int) ≠ id) && !(isSame ((dmAt g (i : Int) id).getD 0) g.absent))).map
      (fun (i : Nat) => (i : Int))

/-- `DirectedMatrix.HasEdgeFromTo`. -/
def dmHasEdgeFromTo (g : DirectedMatrix) (u v : Int) : Bool :=
  dmHas g u && dmHas g v && decide (u ≠ v) &&
    !(isSame ((dmAt g u v).getD 0) g.absent)

/-- `DirectedMatrix.Degree`: the two row/column scans, with no range check
on `id`, so `mat64.At` panics (`none`) on an out-of-range `id` as soon as a
cell is read. -/
def dmDegree (g : DirectedMatrix) (id : Int) : Option Nat :=
  ((List.range g.rows).foldlM
      (fun d (i : Nat) =>
        if (i : Int) = id then some d
        else (dmAt g id (i : Int)).map (fun w => if isSame w g.absent then d else d + 1))
      0).bind
    (fun d1 =>
      (List.range g.rows).foldlM
        (fun d (i : Nat) =>
          if (i : Int) = id then some d
          else (dmAt g (i : Int) id).map (fun w => if isSame w g.absent then d else d + 1))
        d1)

/-! ## Sparse directed store (`simple.DirectedGraph`) -/

structure DirSt where
  nodes : IMap Int
  from_ : IMap (IMap GEdge)
  to_ : IMap (IMap GEdge)
  self : ℚ
  absent : ℚ
  freeIDs : List Int
  usedIDs : List Int
deriving DecidableEq

/-- `NewDirectedGraph(self, absent)`. -/
def newDirectedGraph (self absent : ℚ) : DirSt :=
  { nodes := [], from_ := [], to_ := [], self := self, absent := absent,
    freeIDs := [], usedIDs := [] }

/-- `DirectedGraph.NewNodeID`: returns the fresh ID together with the
updated store (`TakeMin` removes the taken ID from `freeIDs`). -/
def dirNewNodeID (g : DirSt) : Except (String × DirSt) (Int × DirSt) :=
  if g.nodes.length = 0 then .ok (0, g)
  else if (g.nodes.length : Int) = maxInt then
    .error ("simple: cannot allocate node: no slot", g)
  else
    match stakeMin g.freeIDs with
    | some (id, rest) => .ok (id, { g with freeIDs := rest })
    | none =>
      let id := smax g.usedIDs minInt
      if id < maxInt then .ok (id + 1, g)
      else
        match (List.range maxInt.toNat).find? (fun (i : Nat) => !(shas g.usedIDs (i : Int))) with
        | some i => .ok ((i : Int), g)
        | none => .error ("unreachable", g)

/-- The mutation performed by a successful `DirectedGraph.AddNode`. -/
def dirAddNodeRaw (g : DirSt) (n : Int) : DirSt :=
  { g with
    nodes := minsert g.nodes n n
    from_ := minsert g.from_ n []
    to_ := minsert g.to_ n []
    freeIDs := sremove g.freeIDs n
    usedIDs := sinsert g.usedIDs n }

/-- `DirectedGraph.AddNode`: panics on an ID collision, before mutating. -/
def dirAddNode (g : DirSt) (n : Int) : Except (String × DirSt) DirSt :=
  if mhas g.nodes n then .error ("simple: node ID collision", g)
  else .ok (dirAddNodeRaw g n)

/-- The per-key body of the two stripping loops of
`DirectedGraph.RemoveNode`: `delete(m[k], id)` for each `k` in `ks`. -/
def stripCol (ks : List Int) (id : Int) (m : IMap (IMap GEdge)) : IMap (IMap GEdge) :=
  ks.foldl (fun acc k => mmodify acc k (fun inner => merase inner id)) m

/-- `DirectedGraph.RemoveNode`, in the order the code mutates: strip `id`
out of `to[k]` for the successors `k` of `id`, drop row `from[id]`, strip
`id` out of `from[k]` for the predecessors `k` announced by the current
`to[id]`, drop row `to[id]`, then release the ID. -/
def dirRemoveNode (g : DirSt) (id : Int) : DirSt :=
  if ¬ mhas g.nodes id then g
  else
    let nodes1 := merase g.nodes id
    let to1 := stripCol (mkeysOf g.from_ id) id g.to_
    let from1 := merase g.from_ id
    let from2 := stripCol (mkeysOf to1 id) id from1
    let to2 := merase to1 id
    { g with
      nodes := nodes1, from_ := from2, to_ := to2
      freeIDs := sinsert g.freeIDs id
      usedIDs := sremove g.usedIDs id }

/-- The two mirrored assignments of `DirectedGraph.SetEdge`:
`g.from[fid][tid] = e` then `g.to[tid][fid] = e` (an assignment into a
missing inner map is the Go nil-map assignment panic, carrying the state
mutated so far). -/
def dirSetEdgeAssign (g2 : DirSt) (e : GEdge) : Except (String × DirSt) DirSt :=
  match mget g2.from_ e.f with
  | none => .error ("assignment to entry in nil map", g2)
  | some fi =>
    let g3 := { g2 with from_ := minsert g2.from_ e.f (minsert fi e.t e) }
    match mget g3.to_ e.t with
    | none => .error ("assignment to entry in nil map", g3)
    | some ti => .ok { g3 with to_ := minsert g3.to_ e.t (minsert ti e.f e) }

/-- `DirectedGraph.SetEdge`: the self-loop check precedes every mutation;
the missing endpoints are then added, then the two mirrored assignments are
performed. -/
def dirSetEdge (g : DirSt) (e : GEdge) : Except (String × DirSt) DirSt :=
  if e.f = e.t then .error ("simple: adding self edge", g)
  else
    let g1 := if mhas g.nodes e.f then g else dirAddNodeRaw g e.f
    let g2 := if mhas g1.nodes e.t then g1 else dirAddNodeRaw g1 e.t
    dirSetEdgeAssign g2 e

/-- `DirectedGraph.RemoveEdge`: silent no-op when either terminal node is
absent; otherwise deletes both mirrored entries.  No panic path. -/
def dirRemoveEdge (g : DirSt) (e : GEdge) : DirSt :=
  if ¬ mhas g.nodes e.f then g
  else if ¬ mhas g.nodes e.t then g
  else
    { g with
      from_ := mmodify g.from_ e.f (fun inner => merase inner e.t)
      to_ := mmodify g.to_ e.t (fun inner => merase inner e.f) }

/-- `DirectedGraph.Has`. -/
def dirHas (g : DirSt) (n : Int) : Bool :=
  mhas g.nodes n

/-- `DirectedGraph.From`: `nil` when the node has no `from` row, else the
node values looked up in `nodes` for each successor key (a dangling key
yields the `nil` node, hence `Option Int`). -/
def dirFrom (g : DirSt) (n : Int) : List (Option Int) :=
  match mget g.from_ n with
  | none => []
  | some inner => (mkeys inner).map (fun t => mget g.nodes t)

/-- `DirectedGraph.To`: note the code gates on the `from` row (`g.from[tid]`)
before iterating `g.to[tid]`. -/
def dirTo (g : DirSt) (n : Int) : List (Option Int) :=
  match mget g.from_ n with
  | none => []
  | some _ => (mkeysOf g.to_ n).map (fun f => mget g.nodes f)

/-- `DirectedGraph.Edge`. -/
def dirEdge (g : DirSt) (u v : Int) : Option GEdge :=
  if ¬ mhas g.nodes u then none
  else if ¬ mhas g.nodes v then none
  else mget2 g.from_ u v

/-- `DirectedGraph.HasEdgeFromTo`. -/
def dirHasEdgeFromTo (g : DirSt) (u v : Int) : Bool :=
  mhas g.nodes u && mhas g.nodes v && (mget2 g.from_ u v).isSome

/-- `DirectedGraph.Weight`. -/
def dirWeight (g : DirSt) (x y : Int) : ℚ × Bool :=
  if x = y then (g.self, true)
  else
    match mget2 g.from_ x y with
    | some e => (e.w, true)
    | none => (g.absent, false)

/-- `DirectedGraph.Degree`: `len(from[id]) + len(to[id])` after the
presence check (a missing row is a `nil` map of length 0). -/
def dirDegree (g : DirSt) (n : Int) : Nat :=
  if ¬ mhas g.nodes n then 0
  else ((mget g.from_ n).getD []).length + ((mget g.to_ n).getD []).length

/-- `DirectedGraph.Nodes` (map iteration modelled in list order). -/
def dirNodes (g : DirSt) : List Int :=
  g.nodes.map (fun p => p.2)

/-! ## Sparse undirected store (`simple.UndirectedGraph`) -/

structure UndirSt where
  nodes : IMap Int
  edges : IMap (IMap GEdge)
  self : ℚ
  absent : ℚ
  freeIDs : List Int
  usedIDs : List Int
deriving DecidableEq

/-- `NewUndirectedGraph(self, absent)`. -/
def newUndirectedGraph (self absent : ℚ) : UndirSt :=
  { nodes := [], edges := [], self := self, absent := absent,
    freeIDs := [], usedIDs := [] }

/-- `UndirectedGraph.NewNodeID` (textually the same allocator as the
directed store's). -/
def undirNewNodeID (g : UndirSt) : Except (String × UndirSt) (Int × UndirSt) :=
  if g.nodes.length = 0 then .ok (0, g)
  else if (g.nodes.length : Int) = maxInt then
    .error ("simple: cannot allocate node: no slot", g)
  else
    match stakeMin g.freeIDs with
    | some (id, rest) => .ok (id, { g with freeIDs := rest })
    | none =>
      let id := smax g.usedIDs minInt
      if id < maxInt then .ok (id + 1, g)
      else
        match (List.range maxInt.toNat).find? (fun (i : Nat) => !(shas g.usedIDs (i : Int))) with
        | some i => .ok ((i : Int), g)
        | none => .error ("unreachable", g)

/-- The mutation performed by a successful `UndirectedGraph.AddNode`. -/
def undirAddNodeRaw (g : UndirSt) (n : Int) : UndirSt :=
  { g with
    nodes := minsert g.nodes n n
    edges := minsert g.edges n []
    freeIDs := sremove g.freeIDs n
    usedIDs := sinsert g.usedIDs n }

/-- `UndirectedGraph.AddNode`. -/
def undirAddNode (g : UndirSt) (n : Int) : Except (String × UndirSt) UndirSt :=
  if mhas g.nodes n then .error ("simple: node ID collision", g)
  else .ok (undirAddNodeRaw g n)

/-- `UndirectedGraph.RemoveNode`. -/
def undirRemoveNode (g : UndirSt) (id : Int) : UndirSt :=
  if ¬ mhas g.nodes id then g
  else
    let nodes1 := merase g.nodes id
    let edges1 := stripCol (mkeysOf g.edges id) id g.edges
    let edges2 := merase edges1 id
    { g with
      nodes := nodes1, edges := edges2
      freeIDs := sinsert g.freeIDs id
      usedIDs := sremove g.usedIDs id }

/-- The two mirrored assignments of `UndirectedGraph.SetEdge`:
`g.edges[fid][tid] = e` then `g.edges[tid][fid] = e`. -/
def undirSetEdgeAssign (g2 : UndirSt) (e : GEdge) : Except (String × UndirSt) UndirSt :=
  match mget g2.edges e.f with
  | none => .error ("assignment to entry in nil map", g2)
  | some fi =>
    let g3 := { g2 with edges := minsert g2.edges e.f (minsert fi e.t e) }
    match mget g3.edges e.t with
    | none => .error ("assignment to entry in nil map", g3)
    | some ti => .ok { g3 with edges := minsert g3.edges e.t (minsert ti e.f e) }

/-- `UndirectedGraph.SetEdge`: self-loop check first, endpoints auto-added,
then the two mirrored assignments. -/
def undirSetEdge (g : UndirSt) (e : GEdge) : Except (String × UndirSt) UndirSt :=
  if e.f = e.t then .error ("simple: adding self edge", g)
  else
    let g1 := if mhas g.nodes e.f then g else undirAddNodeRaw g e.f
    let g2 := if mhas g1.nodes e.t then g1 else undirAddNodeRaw g1 e.t
    undirSetEdgeAssign g2 e

/-- `UndirectedGraph.RemoveEdge`. -/
def undirRemoveEdge (g : UndirSt) (e : GEdge) : UndirSt :=
  if ¬ mhas g.nodes e.f then g
  else if ¬ mhas g.nodes e.t then g
  else
    { g with
      edges := mmodify (mmodify g.edges e.f (fun inner => merase inner e.t))
        e.t (fun inner => merase inner e.f) }

/-- `UndirectedGraph.Has`. -/
def undirHas (g : UndirSt) (n : Int) : Bool :=
  mhas g.nodes n

/-- `UndirectedGraph.From`. -/
def undirFrom (g : UndirSt) (n : Int) : List (Option Int) :=
  if ¬ undirHas g n then []
  else (mkeysOf g.edges n).map (fun k => mget g.nodes k)

/-- `UndirectedGraph.EdgeBetween` (also `Edge`). -/
def undirEdgeBetween (g : UndirSt) (x y : Int) : Option GEdge :=
  if ¬ undirHas g x then none
  else mget2 g.edges x y

/-- `UndirectedGraph.Degree`. -/
def undirDegree (g : UndirSt) (n : Int) : Nat :=
  if ¬ mhas g.nodes n then 0
  else ((mget g.edges n).getD []).length

/-- `UndirectedGraph.Nodes` (map iteration modelled in list order). -/
def undirNodes (g : UndirSt) : List Int :=
  g.nodes.map (fun p => p.2)

/-! ## Mutation sequences -/

/-- One mutating call on the sparse directed store. -/
inductive DOp where
  | addNode (n : Int)
  | removeNode (id : Int)
  | setEdge (e : GEdge)
  | removeEdge (e : GEdge)
deriving DecidableEq

/-- Apply one directed-store operation. -/
def dirApply (op : DOp) (g : DirSt) : Except (String × DirSt) DirSt :=
  match op with
  | .addNode n => dirAddNode g n
  | .removeNode id => .ok (dirRemoveNode g id)
  | .setEdge e => dirSetEdge g e
  | .removeEdge e => .ok (dirRemoveEdge g e)

/-- Run a sequence of directed-store operations, stopping at a panic. -/
def dirRun : List DOp → DirSt → Except (String × DirSt) DirSt
  | [], g => .ok g
  | op :: ops, g =>
    match dirApply op g with
    | .ok g' => dirRun ops g'
    | .error err => .error err

/-- The store state an execution ends in: the result state on success, the
state at the instant of the panic otherwise. -/
def dirEndState (r : Except (String × DirSt) DirSt) : DirSt :=
  match r with
  | .ok g => g
  | .error (_, g) => g

/-- One mutating call on the sparse undirected store. -/
inductive UOp where
  | addNode (n : Int)
  | removeNode (id : Int)
  | setEdge (e : GEdge)
  | removeEdge (e : GEdge)
deriving DecidableEq

/-- Apply one undirected-store operation. -/
def undirApply (op : UOp) (g : UndirSt) : Except (String × UndirSt) UndirSt :=
  match op with
  | .addNode n => undirAddNode g n
  | .removeNode id => .ok (undirRemoveNode g id)
  | .setEdge e => undirSetEdge g e
  | .removeEdge e => .ok (undirRemoveEdge g e)

/-- Run a sequence of undirected-store operations, stopping at a panic. -/
def undirRun : List UOp → UndirSt → Except (String × UndirSt) UndirSt
  | [], g => .ok g
  | op :: ops, g =>
    match undirApply op g with
    | .ok g' => undirRun ops g'
    | .error err => .error err

/-- End state of an undirected-store execution. -/
def undirEndState (r : Except (String × UndirSt) UndirSt) : UndirSt :=
  match r with
  | .ok g => g
  | .error (_, g) => g

/-! ## The generic `Copy` algorithm (package `graph`)

`Copy(dst Builder, src Graph)` is generic over the interfaces; the claims
exercise it with an undirected source and a directed destination, so it is
instantiated at those two concrete stores, call for call:
`nodes := src.Nodes()`, then `dst.AddNode(n)` for each node, then
`dst.SetEdge(src.Edge(u.ID(), v.ID()))` for each `u` in `nodes` and each
`v` in `src.From(u.ID())`.  A `nil` node returned by `From` or a `nil`
edge returned by `Edge` would make the nested call panic; both are
modelled as errors (neither occurs on well-formed stores). -/

def copyUndirToDir (dst : DirSt) (src : UndirSt) : Except (String × DirSt) DirSt :=
  let nodes := undirNodes src
  match nodes.foldlM (fun d n => dirAddNode d n) dst with
  | .error err => .error err
  | .ok d1 =>
    nodes.foldlM
      (fun d u =>
        (undirFrom src u).foldlM
          (fun d v? =>
            match v? with
            | none => .error ("runtime: nil node", d)
            | some v =>
              match undirEdgeBetween src u v with
              | none => .error ("runtime: nil edge", d)
              | some e => dirSetEdge d e)
          d)
      d1

/-- A caller's `Set(i, j, v)` on the matrix returned by
`DirectedMatrix.Matrix`, expressed as its effect on the store.
`Matrix` executes `m := *g.mat; return &m`: the struct copy duplicates the
dimension fields but the `Data` slice header inside `blas64.General` still
points at the store's backing array, so a `Set` through the returned matrix
writes the store's own cell (and panics out of range, as `mat64.Set`
does). -/
def dmMatrixSet (g : DirectedMatrix) (i j : Int) (v : ℚ) :
    Except (String × DirectedMatrix) DirectedMatrix :=
  if 0 ≤ i ∧ i < (g.rows : Int) ∧ 0 ≤ j ∧ j < (g.rows : Int) then
    .ok { g with mat := g.mat.set (i.toNat * g.rows + j.toNat) v }
  else
    .error ("mat64: index out of range", g)

/-- End state of a dense-store call. -/
def dmEndState (r : Except (String × DirectedMatrix) DirectedMatrix) : DirectedMatrix :=
  match r with
  | .ok g => g
  | .error (_, g) => g

/-- The ID handed out by an allocator call of the directed store. -/
def allocatedIDD (r : Except (String × DirSt) (Int × DirSt)) : Option Int :=
  match r with
  | .ok (i, _) => some i
  | .error _ => none

/-- The ID handed out by an allocator call of the undirected store. -/
def allocatedIDU (r : Except (String × UndirSt) (Int × UndirSt)) : Option Int :=
  match r with
  | .ok (i, _) => some i
  | .error _ => none

/-- Two successive `NewNodeID` calls on the directed store with no
intervening mutation. -/
def nextTwoD (g : DirSt) : Option (Int × Int) :=
  match dirNewNodeID g with
  | .ok (a, g') =>
    match dirNewNodeID g' with
    | .ok (b, _) => some (a, b)
    | .error _ => none
  | .error _ => none

/-- Two successive `NewNodeID` calls on the undirected store. -/
def nextTwoU (g : UndirSt) : Option (Int × Int) :=
  match undirNewNodeID g with
  | .ok (a, g') =>
    match undirNewNodeID g' with
    | .ok (b, _) => some (a, b)
    | .error _ => none
  | .error _ => none

/-- Decidable well-formedness used for queries on the directed store: every
adjacency row belongs to a present node (true of every store reachable from
`NewDirectedGraph`, since `AddNode` is the only row creator). -/
def wfD (g : DirSt) : Bool :=
  (mkeys g.from_).all (fun k => mhas g.nodes k) &&
    (mkeys g.to_).all (fun k => mhas g.nodes k)

/-- The mirror invariant of the sparse directed store: `from[u][v]` holds an
edge exactly when `to[v][u]` holds the same edge. -/
def MirrorD (g : DirSt) : Prop :=
  ∀ u v, mget2 g.from_ u v = mget2 g.to_ v u

/-- Stored edges join present nodes. -/
def ClosedD (g : DirSt) : Prop :=
  ∀ u v, (mget2 g.from_ u v).isSome = true →
    mhas g.nodes u = true ∧ mhas g.nodes v = true

/-- Each node owns a `from` row and a `to` row, and only nodes do. -/
def RowsD (g : DirSt) : Prop :=
  (∀ n, (mget g.from_ n).isSome = mhas g.nodes n) ∧
    (∀ n, (mget g.to_ n).isSome = mhas g.nodes n)

/-- The inductive invariant of the sparse directed store. -/
def InvD (g : DirSt) : Prop :=
  MirrorD g ∧ ClosedD g ∧ RowsD g

/-- The dense store of C1 after `NewDirectedMatrix(4, 0.0, 0.0, -1.0)` and
`SetEdge(0→1, w=2.5)`. -/
def c1st : DirectedMatrix :=
  dmEndState (dmSetEdge (newDirectedMatrix 4 0 0 (-1)) ⟨0, 1, mkRat 5 2⟩)

/-- C1's dense store after additionally `RemoveEdge(0→1)`. -/
def c1st2 : DirectedMatrix :=
  dmRemoveEdge c1st ⟨0, 1, 0⟩

/-- The dense store of C4 after a write of `7` at `(0, 1)` through the
matrix returned by `Matrix()`. -/
def c4st : DirectedMatrix :=
  dmEndState (dmMatrixSet (newDirectedMatrix 2 0 0 (-1)) 0 1 7)

/-- Directed store after `AddNode(5); RemoveNode(5)`: no nodes, free set
`{5}`. -/
def c6d : DirSt :=
  dirEndState (dirRun [.addNode 5, .removeNode 5] (newDirectedGraph 0 0))

/-- Undirected store after `AddNode(5); RemoveNode(5)`. -/
def c6u : UndirSt :=
  undirEndState (undirRun [.addNode 5, .removeNode 5] (newUndirectedGraph 0 0))

/-- The undirected source of C7: one edge `{F:0, T:1, W:5/2}` between nodes
0 and 1. -/
def c7src : UndirSt :=
  undirEndState (undirRun [.setEdge ⟨0, 1, mkRat 5 2⟩] (newUndirectedGraph 0 0))

/-- The destination produced by `Copy` of `c7src` into an empty directed
store. -/
def c7out : Option DirSt :=
  match copyUndirToDir (newDirectedGraph 0 0) c7src with
  | .ok d => some d
  | .error _ => none

/-- A directed destination already holding node id 0 (shared with
`c7src`). -/
def c7dstColl : DirSt :=
  dirEndState (dirRun [.addNode 0] (newDirectedGraph 0 0))

/-- Directed store after `AddNode 0,1,2; RemoveNode 1` (claim C9). -/
def c9d : DirSt :=
  dirEndState (dirRun [.addNode 0, .addNode 1, .addNode 2, .removeNode 1] (newDirectedGraph 0 0))

/-- Undirected store after `AddNode 0,1,2; RemoveNode 1` (claim C9). -/
def c9u : UndirSt :=
  undirEndState (undirRun [.addNode 0, .addNode 1, .addNode 2, .removeNode 1] (newUndirectedGraph 0 0))

/-- Directed store after `AddNode 0,1,2; RemoveNode 0; RemoveNode 1`
(claim C10: free set `{0, 1}`). -/
def c10d : DirSt :=
  dirEndState (dirRun [.addNode 0, .addNode 1, .addNode 2, .removeNode 0, .removeNode 1]
    (newDirectedGraph 0 0))

/-- Undirected store after `AddNode 0,1,2; RemoveNode 0; RemoveNode 1`. -/
def c10u : UndirSt :=
  undirEndState (undirRun [.addNode 0, .addNode 1, .addNode 2, .removeNode 0, .removeNode 1]
    (newUndirectedGraph 0 0))

/-- The undirected store after `SetEdge({F:0, T:1, W:3})` on the empty
store (claim C8's witness state). -/
def c8w : UndirSt :=
  undirEndState (undirRun [.setEdge ⟨0, 1, 3⟩] (newUndirectedGraph 0 0))

/-- The panic message of `Copy` into a directed destination that already
holds node id 0. -/
def c7collMsg : Option String :=
  match copyUndirToDir c7dstColl c7src with
  | .ok _ => none
  | .error (m, _) => some m

/-! ## Lemmas about the map and set primitives -/

theorem mget_merase {α : Type} (m : IMap α) (k k' : Int) :
    mget (merase m k) k' = if k' = k then none else mget m k' := by
  induction m with
  | nil => simp [merase, mget]
  | cons p rest ih =>
    obtain ⟨k0, v0⟩ := p
    by_cases h : k = k0
    · subst h
      by_cases h' : k' = k
      · subst h'
        simpa [merase, mget] using ih
      · simp [merase, mget, h', ih]
    · by_cases h' : k' = k0
      · subst h'
        simp [merase, mget, h, Ne.symm h]
      · simp [merase, mget, h, h', ih]

theorem mget_minsert {α : Type} (m : IMap α) (k : Int) (v : α) (k' : Int) :
    mget (minsert m k v) k' = if k' = k then some v else mget m k' := by
  by_cases h : k' = k <;> simp [minsert, mget, h, mget_merase]

theorem mget_mmodify {α : Type} (m : IMap α) (k : Int) (fn : α → α) (k' : Int) :
    mget (mmodify m k fn) k' = if k' = k then (mget m k).map fn else mget m k' := by
  unfold mmodify
  cases h : mget m k with
  | none =>
    by_cases h' : k' = k <;> simp [h', h]
  | some v =>
    by_cases h' : k' = k <;> simp [h', h, mget_minsert]

theorem mem_mkeys {α : Type} (m : IMap α) (k : Int) :
    k ∈ mkeys m ↔ (mget m k).isSome = true := by
  induction m with
  | nil => simp [mkeys, mget]
  | cons p rest ih =>
    obtain ⟨k0, v0⟩ := p
    by_cases h : k = k0 <;> simp [mkeys, mget, h, ← ih, mkeys]

theorem mem_mkeysOf {α : Type} (m : IMap (IMap α)) (id k : Int) :
    k ∈ mkeysOf m id ↔ (mget2 m id k).isSome = true := by
  unfold mkeysOf mget2
  cases h : mget m id with
  | none => simp
  | some inner => simpa using mem_mkeys inner k

theorem mget2_minsert {α : Type} (m : IMap (IMap α)) (k : Int) (inner : IMap α) (u v : Int) :
    mget2 (minsert m k inner) u v = if u = k then mget inner v else mget2 m u v := by
  unfold mget2
  rw [mget_minsert]
  by_cases h : u = k <;> simp [h]

theorem mget2_merase {α : Type} (m : IMap (IMap α)) (k : Int) (u v : Int) :
    mget2 (merase m k) u v = if u = k then none else mget2 m u v := by
  unfold mget2
  rw [mget_merase]
  by_cases h : u = k <;> simp [h]

theorem mget2_mmodify_erase {α : Type} (m : IMap (IMap α)) (k id u v : Int) :
    mget2 (mmodify m k (fun inner => merase inner id)) u v =
      if u = k ∧ v = id then none else mget2 m u v := by
  unfold mget2
  rw [mget_mmodify]
  by_cases h : u = k
  · subst h
    cases hrow : mget m u with
    | none => by_cases h' : v = id <;> simp [h']
    | some inner => by_cases h' : v = id <;> simp [h', mget_merase]
  · simp [h]

theorem mget2_stripCol (ks : List Int) (id : Int) (m : IMap (IMap GEdge))
    (u v : Int) :
    mget2 (stripCol ks id m) u v = if u ∈ ks ∧ v = id then none else mget2 m u v := by
  induction ks generalizing m with
  | nil => simp [stripCol]
  | cons k rest ih =>
    show mget2 (stripCol rest id (mmodify m k (fun inner => merase inner id))) u v = _
    rw [ih, mget2_mmodify_erase]
    by_cases hu : u = k
    · subst hu
      by_cases hv : v = id <;> by_cases hr : u ∈ rest <;> simp [hv, hr]
    · by_cases hv : v = id <;> by_cases hr : u ∈ rest <;> simp [hv, hr, hu]

theorem mget_stripCol_isSome (ks : List Int) (id : Int) (m : IMap (IMap GEdge)) (n : Int) :
    (mget (stripCol ks id m) n).isSome = (mget m n).isSome := by
  induction ks generalizing m with
  | nil => simp [stripCol]
  | cons k rest ih =>
    show (mget (stripCol rest id (mmodify m k (fun inner => merase inner id))) n).isSome = _
    rw [ih, mget_mmodify]
    by_cases h : n = k
    · subst h
      cases mget m n <;> simp
    · simp [h]

theorem mhas_minsert {α : Type} (m : IMap α) (k : Int) (v : α) (k' : Int) :
    mhas (minsert m k v) k' = (decide (k' = k) || mhas m k') := by
  unfold mhas
  rw [mget_minsert]
  by_cases h : k' = k <;> simp [h]

theorem mhas_merase {α : Type} (m : IMap α) (k k' : Int) :
    mhas (merase m k) k' = (decide (k' ≠ k) && mhas m k') := by
  unfold mhas
  rw [mget_merase]
  by_cases h : k' = k <;> simp [h]

theorem mget2_minsert_row {α : Type} (m : IMap (IMap α)) (k : Int) (inner : IMap α)
    (t : Int) (v0 : α) (hrow : mget m k = some inner) (u v : Int) :
    mget2 (minsert m k (minsert inner t v0)) u v =
      if u = k ∧ v = t then some v0 else mget2 m u v := by
  rw [mget2_minsert]
  by_cases hu : u = k
  · subst hu
    rw [mget_minsert]
    by_cases hv : v = t
    · simp [hv]
    · simp only [hv, if_false, and_false, if_neg, mget2]
      rw [hrow]
      simp [hv]
  · simp [hu]

/-! ## Preservation of the directed-store invariant (claim C2) -/

theorem invD_addNodeRaw (g : DirSt) (n : Int) (h : InvD g)
    (hn : mhas g.nodes n = false) : InvD (dirAddNodeRaw g n) := by
  obtain ⟨hm, hc, hr⟩ := h
  refine ⟨?_, ?_, ?_, ?_⟩
  · intro u v
    show mget2 (minsert g.from_ n []) u v = mget2 (minsert g.to_ n []) v u
    rw [mget2_minsert, mget2_minsert]
    by_cases hu : u = n
    · subst hu
      by_cases hv : v = u
      · simp [hv, mget]
      · simp only [hv, if_false, mget]
        have h2 : mget2 g.to_ v u = mget2 g.from_ u v := (hm u v).symm
        rw [h2]
        cases hfe : mget2 g.from_ u v with
        | none => rfl
        | some e =>
          have := (hc u v (by rw [hfe]; rfl)).1
          rw [hn] at this
          cases this
    · by_cases hv : v = n
      · subst hv
        simp only [hu, if_false, if_pos rfl, mget]
        have h2 : mget2 g.from_ u v = mget2 g.to_ v u := hm u v
        rw [h2]
        cases hte : mget2 g.to_ v u with
        | none => rfl
        | some e =>
          have h3 : (mget2 g.from_ u v).isSome = true := by
            rw [h2, hte]; rfl
          have := (hc u v h3).2
          rw [h2, hte] at h3
          have h4 := (hc u v (by rw [hm u v, hte]; rfl)).2
          rw [hn] at h4
          cases h4
      · simp [hu, hv, hm u v]
  · intro u v hsome
    show mhas (minsert g.nodes n n) u = true ∧ mhas (minsert g.nodes n n) v = true
    rw [mhas_minsert, mhas_minsert]
    have hsome' : (mget2 (minsert g.from_ n []) u v).isSome = true := hsome
    rw [mget2_minsert] at hsome'
    by_cases hu : u = n
    · rw [if_pos hu] at hsome'
      simp [mget] at hsome'
    · rw [if_neg hu] at hsome'
      have := hc u v hsome'
      simp [this.1, this.2]
  · intro n'
    show (mget (minsert g.from_ n []) n').isSome = mhas (minsert g.nodes n n) n'
    rw [mget_minsert, mhas_minsert]
    by_cases hn' : n' = n
    · simp [hn']
    · simp [hn', (hr.1 n')]
  · intro n'
    show (mget (minsert g.to_ n []) n').isSome = mhas (minsert g.nodes n n) n'
    rw [mget_minsert, mhas_minsert]
    by_cases hn' : n' = n
    · simp [hn']
    · simp [hn', (hr.2 n')]

theorem dirRemoveNode_eq (g : DirSt) (id : Int) (hid : mhas g.nodes id = true) :
    dirRemoveNode g id =
      { g with
        nodes := merase g.nodes id
        from_ := stripCol (mkeysOf (stripCol (mkeysOf g.from_ id) id g.to_) id) id
          (merase g.from_ id)
        to_ := merase (stripCol (mkeysOf g.from_ id) id g.to_) id
        freeIDs := sinsert g.freeIDs id
        usedIDs := sremove g.usedIDs id } := by
  unfold dirRemoveNode
  rw [if_neg (by simp [hid])]

theorem invD_removeNode (g : DirSt) (nid : Int) (h : InvD g) :
    InvD (dirRemoveNode g nid) := by
  obtain ⟨hm, hc, hr⟩ := h
  by_cases hid : mhas g.nodes nid = true
  · rw [dirRemoveNode_eq g nid hid]
    set K1 := mkeysOf g.from_ nid with hK1def
    set to1 := stripCol K1 nid g.to_ with hto1def
    set K2 := mkeysOf to1 nid with hK2def
    have hto1 : ∀ v u, mget2 to1 v u =
        if v ∈ K1 ∧ u = nid then none else mget2 g.to_ v u := by
      intro v u
      rw [hto1def, mget2_stripCol]
    have hK2mem : ∀ u, u ∈ K2 ↔ (mget2 to1 nid u).isSome = true := by
      intro u
      rw [hK2def]
      exact mem_mkeysOf to1 nid u
    have hK1mem : ∀ v, v ∈ K1 ↔ (mget2 g.from_ nid v).isSome = true := by
      intro v
      rw [hK1def]
      exact mem_mkeysOf g.from_ nid v
    have hfrom2 : ∀ u v, mget2 (stripCol K2 nid (merase g.from_ nid)) u v =
        if u ∈ K2 ∧ v = nid then none
        else if u = nid then none else mget2 g.from_ u v := by
      intro u v
      rw [mget2_stripCol, mget2_merase]
    have hto2 : ∀ v u, mget2 (merase to1 nid) v u =
        if v = nid then none
        else if v ∈ K1 ∧ u = nid then none else mget2 g.to_ v u := by
      intro v u
      rw [mget2_merase, hto1]
    have hintoK2 : ∀ u, u ≠ nid → (mget2 g.from_ u nid).isSome = true → u ∈ K2 := by
      intro u hu hsome
      rw [hK2mem, hto1]
      rw [if_neg (by simp [hu])]
      rw [← hm u nid]
      exact hsome
    refine ⟨?_, ?_, ?_, ?_⟩
    · intro u v
      show mget2 (stripCol K2 nid (merase g.from_ nid)) u v = mget2 (merase to1 nid) v u
      rw [hfrom2, hto2]
      by_cases hu : u = nid
      · subst hu
        have hlhs : (if u ∈ K2 ∧ v = u then none
            else if u = u then none else mget2 g.from_ u v) = (none : Option GEdge) := by
          split
          · rfl
          · simp
        rw [hlhs]
        by_cases hv : v = u
        · simp [hv]
        · rw [if_neg hv]
          by_cases hvk : v ∈ K1
          · rw [if_pos ⟨hvk, rfl⟩]
          · rw [if_neg (by simp [hvk])]
            have h2 : mget2 g.to_ v u = mget2 g.from_ u v := (hm u v).symm
            rw [h2]
            cases hfe : mget2 g.from_ u v with
            | none => rfl
            | some e =>
              exact absurd ((hK1mem v).2 (by rw [hfe]; rfl)) hvk
      · by_cases hv : v = nid
        · subst hv
          rw [if_pos rfl]
          by_cases huk : u ∈ K2
          · rw [if_pos ⟨huk, rfl⟩]
          · rw [if_neg (by simp [huk]), if_neg hu]
            cases hfe : mget2 g.from_ u v with
            | none => rfl
            | some e =>
              exact absurd (hintoK2 u hu (by rw [hfe]; rfl)) huk
        · rw [if_neg (by simp [hv]), if_neg hu, if_neg hv, if_neg (by simp [hu])]
          exact hm u v
    · intro u v hsome
      have hsome' : (mget2 (stripCol K2 nid (merase g.from_ nid)) u v).isSome = true := hsome
      rw [hfrom2] at hsome'
      by_cases h1 : u ∈ K2 ∧ v = nid
      · rw [if_pos h1] at hsome'
        cases hsome'
      · rw [if_neg h1] at hsome'
        by_cases hu : u = nid
        · rw [if_pos hu] at hsome'
          cases hsome'
        · rw [if_neg hu] at hsome'
          have hcl := hc u v hsome'
          have hv : v ≠ nid := by
            intro hv
            subst hv
            exact h1 ⟨hintoK2 u hu hsome', rfl⟩
          constructor
          · show mhas (merase g.nodes nid) u = true
            rw [mhas_merase]
            simp [hu, hcl.1]
          · show mhas (merase g.nodes nid) v = true
            rw [mhas_merase]
            simp [hv, hcl.2]
    · intro n
      show (mget (stripCol K2 nid (merase g.from_ nid)) n).isSome = mhas (merase g.nodes nid) n
      rw [mget_stripCol_isSome, mget_merase, mhas_merase]
      by_cases hn : n = nid
      · simp [hn]
      · simp only [hn, if_false]
        simp [hn, hr.1 n, mhas]
    · intro n
      show (mget (merase to1 nid) n).isSome = mhas (merase g.nodes nid) n
      rw [mget_merase, mhas_merase]
      by_cases hn : n = nid
      · simp [hn]
      · simp only [hn, if_false]
        rw [hto1def, mget_stripCol_isSome]
        simp [hn, hr.2 n, mhas]
  · unfold dirRemoveNode
    rw [if_pos (by simp [hid])]
    exact ⟨hm, hc, hr⟩

theorem invD_removeEdge (g : DirSt) (e : GEdge) (h : InvD g) :
    InvD (dirRemoveEdge g e) := by
  obtain ⟨hm, hc, hr⟩ := h
  unfold dirRemoveEdge
  by_cases hf : mhas g.nodes e.f = true
  · by_cases ht : mhas g.nodes e.t = true
    · rw [if_neg (by simp [hf]), if_neg (by simp [ht])]
      have hfrom : ∀ u v, mget2 (mmodify g.from_ e.f (fun inner => merase inner e.t)) u v =
          if u = e.f ∧ v = e.t then none else mget2 g.from_ u v := by
        intro u v
        rw [mget2_mmodify_erase]
      have hto : ∀ v u, mget2 (mmodify g.to_ e.t (fun inner => merase inner e.f)) v u =
          if v = e.t ∧ u = e.f then none else mget2 g.to_ v u := by
        intro v u
        rw [mget2_mmodify_erase]
      refine ⟨?_, ?_, ?_, ?_⟩
      · intro u v
        show mget2 (mmodify g.from_ e.f (fun inner => merase inner e.t)) u v =
          mget2 (mmodify g.to_ e.t (fun inner => merase inner e.f)) v u
        rw [hfrom, hto]
        by_cases h1 : u = e.f ∧ v = e.t
        · rw [if_pos h1, if_pos ⟨h1.2, h1.1⟩]
        · rw [if_neg h1, if_neg (fun h2 => h1 ⟨h2.2, h2.1⟩)]
          exact hm u v
      · intro u v hsome
        have hsome' : (mget2 (mmodify g.from_ e.f (fun inner => merase inner e.t)) u v).isSome
            = true := hsome
        rw [hfrom] at hsome'
        by_cases h1 : u = e.f ∧ v = e.t
        · rw [if_pos h1] at hsome'
          cases hsome'
        · rw [if_neg h1] at hsome'
          exact hc u v hsome'
      · intro n
        show (mget (mmodify g.from_ e.f (fun inner => merase inner e.t)) n).isSome
          = mhas g.nodes n
        rw [mget_mmodify]
        by_cases hn : n = e.f
        · rw [if_pos hn, hn]
          have h2 := hr.1 e.f
          cases hrow : mget g.from_ e.f with
          | none =>
            rw [hrow] at h2
            simpa using h2
          | some inner =>
            rw [hrow] at h2
            simpa using h2
        · rw [if_neg hn]
          exact hr.1 n
      · intro n
        show (mget (mmodify g.to_ e.t (fun inner => merase inner e.f)) n).isSome
          = mhas g.nodes n
        rw [mget_mmodify]
        by_cases hn : n = e.t
        · rw [if_pos hn, hn]
          have h2 := hr.2 e.t
          cases hrow : mget g.to_ e.t with
          | none =>
            rw [hrow] at h2
            simpa using h2
          | some inner =>
            rw [hrow] at h2
            simpa using h2
        · rw [if_neg hn]
          exact hr.2 n
    · rw [if_neg (by simp [hf]), if_pos (by simp [ht])]
      exact ⟨hm, hc, hr⟩
  · rw [if_pos (by simp [hf])]
    exact ⟨hm, hc, hr⟩

theorem mhas_addNodeRaw (g : DirSt) (n k : Int) :
    mhas (dirAddNodeRaw g n).nodes k = (decide (k = n) || mhas g.nodes k) := by
  show mhas (minsert g.nodes n n) k = _
  rw [mhas_minsert]

theorem invD_setEdgeAssign (g2 : DirSt) (e : GEdge) (h : InvD g2)
    (hf : mhas g2.nodes e.f = true) (ht : mhas g2.nodes e.t = true) :
    InvD (dirEndState (dirSetEdgeAssign g2 e)) ∧
      (∀ g', dirSetEdgeAssign g2 e = .ok g' → InvD g') := by
  obtain ⟨hm2, hc2, hr2⟩ := h
  have hrowf : (mget g2.from_ e.f).isSome = true := by
    rw [hr2.1 e.f]
    exact hf
  obtain ⟨fi, hfi⟩ := Option.isSome_iff_exists.1 hrowf
  have hrowt : (mget g2.to_ e.t).isSome = true := by
    rw [hr2.2 e.t]
    exact ht
  obtain ⟨ti, hti⟩ := Option.isSome_iff_exists.1 hrowt
  have hstep : dirSetEdgeAssign g2 e = .ok { g2 with
      from_ := minsert g2.from_ e.f (minsert fi e.t e)
      to_ := minsert g2.to_ e.t (minsert ti e.f e) } := by
    unfold dirSetEdgeAssign
    rw [hfi]
    show (match mget ({ g2 with
        from_ := minsert g2.from_ e.f (minsert fi e.t e) } : DirSt).to_ e.t with
      | none => Except.error ("assignment to entry in nil map", { g2 with
          from_ := minsert g2.from_ e.f (minsert fi e.t e) })
      | some ti => Except.ok { g2 with
          from_ := minsert g2.from_ e.f (minsert fi e.t e)
          to_ := minsert g2.to_ e.t (minsert ti e.f e) }) = _
    show (match mget g2.to_ e.t with
      | none => Except.error ("assignment to entry in nil map", { g2 with
          from_ := minsert g2.from_ e.f (minsert fi e.t e) })
      | some ti => Except.ok { g2 with
          from_ := minsert g2.from_ e.f (minsert fi e.t e)
          to_ := minsert g2.to_ e.t (minsert ti e.f e) }) = _
    rw [hti]
  have hfinal : InvD { g2 with
      from_ := minsert g2.from_ e.f (minsert fi e.t e)
      to_ := minsert g2.to_ e.t (minsert ti e.f e) } := by
    have hfrom : ∀ u v, mget2 (minsert g2.from_ e.f (minsert fi e.t e)) u v =
        if u = e.f ∧ v = e.t then some e else mget2 g2.from_ u v :=
      mget2_minsert_row g2.from_ e.f fi e.t e hfi
    have hto : ∀ v u, mget2 (minsert g2.to_ e.t (minsert ti e.f e)) v u =
        if v = e.t ∧ u = e.f then some e else mget2 g2.to_ v u :=
      mget2_minsert_row g2.to_ e.t ti e.f e hti
    refine ⟨?_, ?_, ?_, ?_⟩
    · intro u v
      show mget2 (minsert g2.from_ e.f (minsert fi e.t e)) u v =
        mget2 (minsert g2.to_ e.t (minsert ti e.f e)) v u
      rw [hfrom, hto]
      by_cases h1 : u = e.f ∧ v = e.t
      · rw [if_pos h1, if_pos ⟨h1.2, h1.1⟩]
      · rw [if_neg h1, if_neg (fun h2 => h1 ⟨h2.2, h2.1⟩)]
        exact hm2 u v
    · intro u v hsome
      have hsome' : (mget2 (minsert g2.from_ e.f (minsert fi e.t e)) u v).isSome
          = true := hsome
      rw [hfrom] at hsome'
      by_cases h1 : u = e.f ∧ v = e.t
      · show mhas g2.nodes u = true ∧ mhas g2.nodes v = true
        rw [h1.1, h1.2]
        exact ⟨hf, ht⟩
      · rw [if_neg h1] at hsome'
        exact hc2 u v hsome'
    · intro n
      show (mget (minsert g2.from_ e.f (minsert fi e.t e)) n).isSome = mhas g2.nodes n
      rw [mget_minsert]
      by_cases hn : n = e.f
      · rw [if_pos hn, hn]
        simp [hf]
      · rw [if_neg hn]
        exact hr2.1 n
    · intro n
      show (mget (minsert g2.to_ e.t (minsert ti e.f e)) n).isSome = mhas g2.nodes n
      rw [mget_minsert]
      by_cases hn : n = e.t
      · rw [if_pos hn, hn]
        simp [ht]
      · rw [if_neg hn]
        exact hr2.2 n
  constructor
  · rw [hstep]
    exact hfinal
  · intro g' hok
    rw [hstep] at hok
    cases hok
    exact hfinal

theorem invD_setEdge (g : DirSt) (e : GEdge) (h : InvD g) :
    InvD (dirEndState (dirSetEdge g e)) ∧
      (∀ g', dirSetEdge g e = .ok g' → InvD g') := by
  unfold dirSetEdge
  by_cases hself : e.f = e.t
  · rw [if_pos hself]
    refine ⟨h, ?_⟩
    intro g' h'
    cases h'
  · rw [if_neg hself]
    have hg1 : InvD (if mhas g.nodes e.f then g else dirAddNodeRaw g e.f) := by
      by_cases hf : mhas g.nodes e.f = true
      · simpa [hf] using h
      · rw [if_neg (by simp [hf])]
        exact invD_addNodeRaw g e.f h (by simpa using hf)
    have hg1f : mhas (if mhas g.nodes e.f then g else dirAddNodeRaw g e.f).nodes e.f
        = true := by
      by_cases hf : mhas g.nodes e.f = true
      · simp [hf]
      · rw [if_neg (by simp [hf]), mhas_addNodeRaw]
        simp
    set g1 := if mhas g.nodes e.f then g else dirAddNodeRaw g e.f with hg1def
    have hg2 : InvD (if mhas g1.nodes e.t then g1 else dirAddNodeRaw g1 e.t) := by
      by_cases ht : mhas g1.nodes e.t = true
      · simpa [ht] using hg1
      · rw [if_neg (by simp [ht])]
        exact invD_addNodeRaw g1 e.t hg1 (by simpa using ht)
    have hg2f : mhas (if mhas g1.nodes e.t then g1 else dirAddNodeRaw g1 e.t).nodes e.f
        = true := by
      by_cases ht : mhas g1.nodes e.t = true
      · simpa [ht] using hg1f
      · rw [if_neg (by simp [ht]), mhas_addNodeRaw]
        simp [hg1f]
    have hg2t : mhas (if mhas g1.nodes e.t then g1 else dirAddNodeRaw g1 e.t).nodes e.t
        = true := by
      by_cases ht : mhas g1.nodes e.t = true
      · simp [ht]
      · rw [if_neg (by simp [ht]), mhas_addNodeRaw]
        simp
    exact invD_setEdgeAssign _ e hg2 hg2f hg2t

theorem invD_apply (op : DOp) (g : DirSt) (h : InvD g) :
    InvD (dirEndState (dirApply op g)) ∧ (∀ g', dirApply op g = .ok g' → InvD g') := by
  cases op with
  | addNode n =>
    constructor
    · show InvD (dirEndState (dirAddNode g n))
      unfold dirAddNode
      by_cases hn : mhas g.nodes n = true
      · rw [if_pos (by simp [hn])]
        exact h
      · rw [if_neg (by simp [hn])]
        exact invD_addNodeRaw g n h (by simpa using hn)
    · intro g' h'
      have h'' : dirAddNode g n = .ok g' := h'
      unfold dirAddNode at h''
      by_cases hn : mhas g.nodes n = true
      · rw [if_pos (by simp [hn])] at h''
        cases h''
      · rw [if_neg (by simp [hn])] at h''
        cases h''
        exact invD_addNodeRaw g n h (by simpa using hn)
  | removeNode nid =>
    have hrm := invD_removeNode g nid h
    constructor
    · exact hrm
    · intro g' h'
      have h'' : Except.ok (dirRemoveNode g nid) = (.ok g' : Except (String × DirSt) DirSt) :=
        h'
      cases h''
      exact hrm
  | setEdge e => exact invD_setEdge g e h
  | removeEdge e =>
    have hrm := invD_removeEdge g e h
    constructor
    · exact hrm
    · intro g' h'
      have h'' : Except.ok (dirRemoveEdge g e) = (.ok g' : Except (String × DirSt) DirSt) :=
        h'
      cases h''
      exact hrm

theorem invD_run (ops : List DOp) (g : DirSt) (h : InvD g) :
    InvD (dirEndState (dirRun ops g)) := by
  induction ops generalizing g with
  | nil => exact h
  | cons op ops ih =>
    show InvD (dirEndState (match dirApply op g with
      | .ok g' => dirRun ops g'
      | .error err => .error err))
    cases happ : dirApply op g with
    | ok g' =>
      exact ih g' ((invD_apply op g h).2 g' happ)
    | error err =>
      have h2 := (invD_apply op g h).1
      rw [happ] at h2
      exact h2

theorem invD_empty (s a : ℚ) : InvD (newDirectedGraph s a) := by
  refine ⟨?_, ?_, ?_, ?_⟩
  · intro u v
    rfl
  · intro u v hsome
    cases hsome
  · intro n
    rfl
  · intro n
    rfl


theorem foldlM_cons_option {α β : Type} (f : β → α → Option β) (b : β) (x : α)
    (l : List α) :
    List.foldlM f b (x :: l) = (f b x).bind (fun b2 => List.foldlM f b2 l) :=
  rfl

theorem mhas_undirAddNodeRaw (g : UndirSt) (n k : Int) :
    mhas (undirAddNodeRaw g n).nodes k = (decide (k = n) || mhas g.nodes k) := by
  show mhas (minsert g.nodes n n) k = _
  rw [mhas_minsert]

theorem undirSetEdgeAssign_ok (g2 : UndirSt) (e : GEdge) (fi ti : IMap GEdge)
    (hfi : mget g2.edges e.f = some fi)
    (hti : mget (minsert g2.edges e.f (minsert fi e.t e)) e.t = some ti) :
    undirSetEdgeAssign g2 e = .ok { g2 with
      edges := minsert (minsert g2.edges e.f (minsert fi e.t e)) e.t
        (minsert ti e.f e) } := by
  unfold undirSetEdgeAssign
  rw [hfi]
  show (match mget ({ g2 with
      edges := minsert g2.edges e.f (minsert fi e.t e) } : UndirSt).edges e.t with
    | none => Except.error ("assignment to entry in nil map", { g2 with
        edges := minsert g2.edges e.f (minsert fi e.t e) })
    | some ti => Except.ok { g2 with
        edges := minsert (minsert g2.edges e.f (minsert fi e.t e)) e.t
          (minsert ti e.f e) }) = _
  show (match mget (minsert g2.edges e.f (minsert fi e.t e)) e.t with
    | none => Except.error ("assignment to entry in nil map", { g2 with
        edges := minsert g2.edges e.f (minsert fi e.t e) })
    | some ti => Except.ok { g2 with
        edges := minsert (minsert g2.edges e.f (minsert fi e.t e)) e.t
          (minsert ti e.f e) }) = _
  rw [hti]

theorem undirSetEdgeAssign_err1 (g2 : UndirSt) (e : GEdge)
    (hfi : mget g2.edges e.f = none) :
    undirSetEdgeAssign g2 e = .error ("assignment to entry in nil map", g2) := by
  unfold undirSetEdgeAssign
  rw [hfi]

theorem undirSetEdgeAssign_err2 (g2 : UndirSt) (e : GEdge) (fi : IMap GEdge)
    (hfi : mget g2.edges e.f = some fi)
    (hti : mget (minsert g2.edges e.f (minsert fi e.t e)) e.t = none) :
    undirSetEdgeAssign g2 e = .error ("assignment to entry in nil map", { g2 with
      edges := minsert g2.edges e.f (minsert fi e.t e) }) := by
  unfold undirSetEdgeAssign
  rw [hfi]
  show (match mget ({ g2 with
      edges := minsert g2.edges e.f (minsert fi e.t e) } : UndirSt).edges e.t with
    | none => Except.error ("assignment to entry in nil map", { g2 with
        edges := minsert g2.edges e.f (minsert fi e.t e) })
    | some ti => Except.ok { g2 with
        edges := minsert (minsert g2.edges e.f (minsert fi e.t e)) e.t
          (minsert ti e.f e) }) = _
  show (match mget (minsert g2.edges e.f (minsert fi e.t e)) e.t with
    | none => Except.error ("assignment to entry in nil map", { g2 with
        edges := minsert g2.edges e.f (minsert fi e.t e) })
    | some ti => Except.ok { g2 with
        edges := minsert (minsert g2.edges e.f (minsert fi e.t e)) e.t
          (minsert ti e.f e) }) = _
  rw [hti]

theorem find?_range'_first (p : Nat → Bool) :
    ∀ (n s i : Nat), (List.range' s n).find? p = some i →
      p i = true ∧ ∀ j, s ≤ j → j < i → p j = false := by
  intro n
  induction n with
  | zero =>
    intro s i h
    cases h
  | succ n ih =>
    intro s i h
    have hcons : List.range' s (n + 1) = s :: List.range' (s + 1) n := rfl
    rw [hcons] at h
    by_cases hps : p s = true
    · rw [List.find?_cons_of_pos _ hps] at h
      cases h
      exact ⟨hps, fun j hsj hji => absurd (Nat.lt_of_le_of_lt hsj hji) (Nat.lt_irrefl _)⟩
    · rw [List.find?_cons_of_neg _ hps] at h
      obtain ⟨hpi, hmin⟩ := ih (s + 1) i h
      refine ⟨hpi, fun j hsj hji => ?_⟩
      by_cases hjs : j = s
      · subst hjs
        exact Bool.not_eq_true (p j) ▸ eq_false_of_ne_true hps
      · exact hmin j (by omega) hji

theorem find?_range_first (p : Nat → Bool) (N i : Nat)
    (h : (List.range N).find? p = some i) :
    p i = true ∧ ∀ j, j < i → p j = false := by
  rw [List.range_eq_range'] at h
  obtain ⟨hpi, hmin⟩ := find?_range'_first p N 0 i h
  exact ⟨hpi, fun j hj => hmin j (Nat.zero_le j) hj⟩

/-! ## Claim theorems -/

/-- C2: for the sparse directed store, starting from the empty graph, after
every sequence of `AddNode`, `RemoveNode`, `SetEdge` and `RemoveEdge`
operations (also at the instant of a panic inside one of them), for all
node ids `u` and `v`, `from[u][v]` holds an edge if and only if `to[v][u]`
holds the same edge. -/
theorem directed_mirror_invariant (s a : ℚ) (ops : List DOp) :
    MirrorD (dirEndState (dirRun ops (newDirectedGraph s a))) :=
  (invD_run ops (newDirectedGraph s a) (invD_empty s a)).1

/-- C5: for all three concrete stores, `SetEdge` of an edge whose endpoints
carry the same ID fails fatally, and the error state — the store at the
instant of the panic — is exactly the store before the call. -/
theorem self_loop_rejected_without_mutation (gd : DirSt) (gu : UndirSt)
    (gm : DirectedMatrix) (e : GEdge) (hself : e.f = e.t) :
    dirSetEdge gd e = .error ("simple: adding self edge", gd) ∧
      undirSetEdge gu e = .error ("simple: adding self edge", gu) ∧
      dmSetEdge gm e = .error ("simple: set illegal edge", gm) := by
  refine ⟨?_, ?_, ?_⟩
  · unfold dirSetEdge
    rw [if_pos hself]
  · unfold undirSetEdge
    rw [if_pos hself]
  · unfold dmSetEdge
    rw [if_pos hself]

/-- Witness for C5 at the empty stores and the self loop `1 → 1`. -/
theorem self_loop_rejected_without_mutation_witness :
    dirSetEdge (newDirectedGraph 0 0) ⟨1, 1, 5⟩ =
        .error ("simple: adding self edge", newDirectedGraph 0 0) ∧
      undirSetEdge (newUndirectedGraph 0 0) ⟨1, 1, 5⟩ =
        .error ("simple: adding self edge", newUndirectedGraph 0 0) ∧
      dmSetEdge (newDirectedMatrix 2 0 0 (-1)) ⟨1, 1, 5⟩ =
        .error ("simple: set illegal edge", newDirectedMatrix 2 0 0 (-1)) :=
  self_loop_rejected_without_mutation (newDirectedGraph 0 0) (newUndirectedGraph 0 0)
    (newDirectedMatrix 2 0 0 (-1)) ⟨1, 1, 5⟩ rfl

/-- C9: in both sparse stores, after adding nodes 0, 1 and 2 and removing
node 1, the next `NewNodeID` call returns 1 (and not 3). -/
theorem id_reuse_after_remove :
    allocatedIDD (dirNewNodeID c9d) = some 1 ∧
      allocatedIDU (undirNewNodeID c9u) = some 1 := by
  constructor
  · rfl
  · rfl

/-- C10: `NewNodeID` removes the ID it takes from the free set: with the
free set `{0, 1}` (after adding 0, 1, 2 and removing 0 and 1), two
successive calls return 0 and then 1; in general, a call that draws from a
non-empty free set returns its head and strips it from the store. -/
theorem newNodeID_consumes_free_id :
    (∀ (g : DirSt) (x : Int) (xs : List Int), g.nodes.length ≠ 0 →
      (g.nodes.length : Int) ≠ maxInt → g.freeIDs = x :: xs →
      dirNewNodeID g = .ok (x, { g with freeIDs := xs })) ∧
    (∀ (g : UndirSt) (x : Int) (xs : List Int), g.nodes.length ≠ 0 →
      (g.nodes.length : Int) ≠ maxInt → g.freeIDs = x :: xs →
      undirNewNodeID g = .ok (x, { g with freeIDs := xs })) ∧
    nextTwoD c10d = some (0, 1) ∧ nextTwoU c10u = some (0, 1) := by
  refine ⟨?_, ?_, by rfl, by rfl⟩
  · intro g x xs h0 hmax hfree
    unfold dirNewNodeID
    rw [if_neg h0, if_neg hmax, hfree]
    rfl
  · intro g x xs h0 hmax hfree
    unfold undirNewNodeID
    rw [if_neg h0, if_neg hmax, hfree]
    rfl

/-- Witness for C10's general clause at the concrete store `c10d`. -/
theorem newNodeID_consumes_free_id_witness :
    dirNewNodeID c10d = .ok (0, { c10d with freeIDs := [1] }) :=
  newNodeID_consumes_free_id.1 c10d 0 [1] (by decide) (by decide) (by decide)

/-- C6 counterexample: after `AddNode(5); RemoveNode(5)` the store has no
nodes and the free set is `{5}`; `NewNodeID` nevertheless returns 0, not
the smallest free ID 5, in both sparse stores. -/
theorem allocator_ignores_free_set_when_no_nodes :
    c6d.freeIDs = [5] ∧ dirNewNodeID c6d = .ok (0, c6d) ∧
      c6u.freeIDs = [5] ∧ undirNewNodeID c6u = .ok (0, c6u) := by
  refine ⟨by rfl, by rfl, by rfl, by rfl⟩

/-- C6 amended: in both sparse stores, when the store has **no nodes**
`NewNodeID` returns 0 regardless of the free set; otherwise it fails when
the node count equals `maxInt`; otherwise it returns (and removes) the
smallest ID of the free set when that set is non-empty; otherwise one past
the maximum used ID when that maximum is below `maxInt`; otherwise the
first unused ID found by the linear scan over `[0, maxInt)` (the scan's
result is unused and every smaller ID is used, with the store unchanged);
a failure leaves the store unchanged and happens only when the node count
is `maxInt` or that scan finds no unused ID. -/
theorem allocator_policy (g : DirSt) (gu : UndirSt) :
    ((g.nodes.length = 0 → dirNewNodeID g = .ok (0, g)) ∧
     (g.nodes.length ≠ 0 → (g.nodes.length : Int) = maxInt →
       dirNewNodeID g = .error ("simple: cannot allocate node: no slot", g)) ∧
     (g.nodes.length ≠ 0 → (g.nodes.length : Int) ≠ maxInt →
       ∀ x xs, g.freeIDs = x :: xs →
       dirNewNodeID g = .ok (x, { g with freeIDs := xs }) ∧
         (g.freeIDs.Pairwise (· < ·) → ∀ y ∈ g.freeIDs, x ≤ y)) ∧
     (g.nodes.length ≠ 0 → (g.nodes.length : Int) ≠ maxInt → g.freeIDs = [] →
       smax g.usedIDs minInt < maxInt →
       dirNewNodeID g = .ok (smax g.usedIDs minInt + 1, g)) ∧
     (g.nodes.length ≠ 0 → (g.nodes.length : Int) ≠ maxInt → g.freeIDs = [] →
       ¬ smax g.usedIDs minInt < maxInt →
       ∀ i : Nat, (List.range maxInt.toNat).find?
           (fun (i : Nat) => !(shas g.usedIDs (i : Int))) = some i →
       dirNewNodeID g = .ok ((i : Int), g) ∧ shas g.usedIDs (i : Int) = false ∧
         (∀ j : Nat, j < i → shas g.usedIDs (j : Int) = true)) ∧
     (∀ msg gE, dirNewNodeID g = .error (msg, gE) → gE = g ∧
       ((g.nodes.length : Int) = maxInt ∨
         (List.range maxInt.toNat).find?
           (fun (i : Nat) => !(shas g.usedIDs (i : Int))) = none))) ∧
    ((gu.nodes.length = 0 → undirNewNodeID gu = .ok (0, gu)) ∧
     (gu.nodes.length ≠ 0 → (gu.nodes.length : Int) = maxInt →
       undirNewNodeID gu = .error ("simple: cannot allocate node: no slot", gu)) ∧
     (gu.nodes.length ≠ 0 → (gu.nodes.length : Int) ≠ maxInt →
       ∀ x xs, gu.freeIDs = x :: xs →
       undirNewNodeID gu = .ok (x, { gu with freeIDs := xs }) ∧
         (gu.freeIDs.Pairwise (· < ·) → ∀ y ∈ gu.freeIDs, x ≤ y)) ∧
     (gu.nodes.length ≠ 0 → (gu.nodes.length : Int) ≠ maxInt → gu.freeIDs = [] →
       smax gu.usedIDs minInt < maxInt →
       undirNewNodeID gu = .ok (smax gu.usedIDs minInt + 1, gu)) ∧
     (gu.nodes.length ≠ 0 → (gu.nodes.length : Int) ≠ maxInt → gu.freeIDs = [] →
       ¬ smax gu.usedIDs minInt < maxInt →
       ∀ i : Nat, (List.range maxInt.toNat).find?
           (fun (i : Nat) => !(shas gu.usedIDs (i : Int))) = some i →
       undirNewNodeID gu = .ok ((i : Int), gu) ∧ shas gu.usedIDs (i : Int) = false ∧
         (∀ j : Nat, j < i → shas gu.usedIDs (j : Int) = true)) ∧
     (∀ msg gE, undirNewNodeID gu = .error (msg, gE) → gE = gu ∧
       ((gu.nodes.length : Int) = maxInt ∨
         (List.range maxInt.toNat).find?
           (fun (i : Nat) => !(shas gu.usedIDs (i : Int))) = none))) := by
  constructor
  · refine ⟨?_, ?_, ?_, ?_, ?_, ?_⟩
    · intro h0
      unfold dirNewNodeID
      rw [if_pos h0]
    · intro h0 hmax
      unfold dirNewNodeID
      rw [if_neg h0, if_pos hmax]
    · intro h0 hmax x xs hfree
      constructor
      · unfold dirNewNodeID
        rw [if_neg h0, if_neg hmax, hfree]
        rfl
      · intro hsort y hy
        rw [hfree] at hsort hy
        rcases List.mem_cons.1 hy with h | h
        · exact le_of_eq h.symm
        · exact le_of_lt ((List.pairwise_cons.1 hsort).1 y h)
    · intro h0 hmax hfree hlt
      unfold dirNewNodeID
      rw [if_neg h0, if_neg hmax, hfree]
      show (if smax g.usedIDs minInt < maxInt then _ else _) = _
      rw [if_pos hlt]
    · intro h0 hmax hfree hnlt i hscan
      obtain ⟨hpi, hmin⟩ := find?_range_first _ _ _ hscan
      refine ⟨?_, ?_, ?_⟩
      · unfold dirNewNodeID
        rw [if_neg h0, if_neg hmax, hfree]
        show (if smax g.usedIDs minInt < maxInt then Except.ok (smax g.usedIDs minInt + 1, g)
          else match (List.range maxInt.toNat).find?
              (fun (i : Nat) => !(shas g.usedIDs (i : Int))) with
            | some i => Except.ok ((i : Int), g)
            | none => Except.error ("unreachable", g)) = _
        rw [if_neg hnlt, hscan]
      · simpa using hpi
      · intro j hj
        simpa using hmin j hj
    · intro msg gE herr
      unfold dirNewNodeID at herr
      by_cases h0 : g.nodes.length = 0
      · rw [if_pos h0] at herr
        cases herr
      · rw [if_neg h0] at herr
        by_cases hmax : (g.nodes.length : Int) = maxInt
        · rw [if_pos hmax] at herr
          cases herr
          exact ⟨rfl, Or.inl hmax⟩
        · rw [if_neg hmax] at herr
          cases hfree : g.freeIDs with
          | cons x xs =>
            rw [hfree] at herr
            cases herr
          | nil =>
            rw [hfree] at herr
            by_cases hlt : smax g.usedIDs minInt < maxInt
            · rw [if_pos hlt] at herr
              cases herr
            · rw [if_neg hlt] at herr
              cases hfind : (List.range maxInt.toNat).find?
                  (fun (i : Nat) => !(shas g.usedIDs (i : Int))) with
              | some i =>
                rw [hfind] at herr
                cases herr
              | none =>
                rw [hfind] at herr
                cases herr
                exact ⟨rfl, Or.inr rfl⟩
  · refine ⟨?_, ?_, ?_, ?_, ?_, ?_⟩
    · intro h0
      unfold undirNewNodeID
      rw [if_pos h0]
    · intro h0 hmax
      unfold undirNewNodeID
      rw [if_neg h0, if_pos hmax]
    · intro h0 hmax x xs hfree
      constructor
      · unfold undirNewNodeID
        rw [if_neg h0, if_neg hmax, hfree]
        rfl
      · intro hsort y hy
        rw [hfree] at hsort hy
        rcases List.mem_cons.1 hy with h | h
        · exact le_of_eq h.symm
        · exact le_of_lt ((List.pairwise_cons.1 hsort).1 y h)
    · intro h0 hmax hfree hlt
      unfold undirNewNodeID
      rw [if_neg h0, if_neg hmax, hfree]
      show (if smax gu.usedIDs minInt < maxInt then _ else _) = _
      rw [if_pos hlt]
    · intro h0 hmax hfree hnlt i hscan
      obtain ⟨hpi, hmin⟩ := find?_range_first _ _ _ hscan
      refine ⟨?_, ?_, ?_⟩
      · unfold undirNewNodeID
        rw [if_neg h0, if_neg hmax, hfree]
        show (if smax gu.usedIDs minInt < maxInt then Except.ok (smax gu.usedIDs minInt + 1, gu)
          else match (List.range maxInt.toNat).find?
              (fun (i : Nat) => !(shas gu.usedIDs (i : Int))) with
            | some i => Except.ok ((i : Int), gu)
            | none => Except.error ("unreachable", gu)) = _
        rw [if_neg hnlt, hscan]
      · simpa using hpi
      · intro j hj
        simpa using hmin j hj
    · intro msg gE herr
      unfold undirNewNodeID at herr
      by_cases h0 : gu.nodes.length = 0
      · rw [if_pos h0] at herr
        cases herr
      · rw [if_neg h0] at herr
        by_cases hmax : (gu.nodes.length : Int) = maxInt
        · rw [if_pos hmax] at herr
          cases herr
          exact ⟨rfl, Or.inl hmax⟩
        · rw [if_neg hmax] at herr
          cases hfree : gu.freeIDs with
          | cons x xs =>
            rw [hfree] at herr
            cases herr
          | nil =>
            rw [hfree] at herr
            by_cases hlt : smax gu.usedIDs minInt < maxInt
            · rw [if_pos hlt] at herr
              cases herr
            · rw [if_neg hlt] at herr
              cases hfind : (List.range maxInt.toNat).find?
                  (fun (i : Nat) => !(shas gu.usedIDs (i : Int))) with
              | some i =>
                rw [hfind] at herr
                cases herr
              | none =>
                rw [hfind] at herr
                cases herr
                exact ⟨rfl, Or.inr rfl⟩

/-- Witness for C6's amended policy: the free-set clause at the concrete
store `c9d` (free set `{1}`, two nodes). -/
theorem allocator_policy_witness :
    dirNewNodeID c9d = .ok (1, { c9d with freeIDs := [] }) :=
  ((allocator_policy c9d c6u).1.2.2.1 (by decide) (by decide) 1 [] (by decide)).1

/-- C1 counterexample: in the store built by `NewDirectedMatrix(4, 0.0,
0.0, -1.0)` and `SetEdge(0→1, w=2.5)`, `Weight(1, 0)` returns `(0.0, true)`
— the initial cell value with `found = true` — not `(-1.0, false)`; and
after `RemoveEdge(0→1)` no edge `0→1` exists yet `Weight(0, 1)` still
returns `found = true`, refuting "found is false whenever `x ≠ y` and no
edge exists". -/
theorem dense_weight_counterexample :
    dmWeight c1st 1 0 = ((0 : ℚ), true) ∧ dmWeight c1st 1 0 ≠ ((-1 : ℚ), false) ∧
      dmHasEdgeFromTo c1st2 0 1 = false ∧ dmWeight c1st2 0 1 = ((-1 : ℚ), true) := by
  refine ⟨by decide, by decide, by decide, by decide⟩

/-- C1 amended: after `NewDirectedMatrix(4, 0.0, 0.0, -1.0)` and
`SetEdge(0→1, w=2.5)`, `Weight(0,1) = (2.5, true)`,
`Weight(1,0) = (0.0, true)` (the initial cell value, since both ids are in
range) and `Weight(2,2) = (0.0, true)`; in general `Weight`'s second result
is false exactly when `x ≠ y` and at least one of `x`, `y` is outside
`[0, n)`. -/
theorem dense_weight_roundtrip_amended :
    (dmWeight c1st 0 1 = (mkRat 5 2, true) ∧ dmWeight c1st 1 0 = ((0 : ℚ), true) ∧
      dmWeight c1st 2 2 = ((0 : ℚ), true)) ∧
    (∀ (g : DirectedMatrix) (x y : Int), x ≠ y →
      ((dmWeight g x y).2 = false ↔ ¬(dmHas g x = true ∧ dmHas g y = true))) := by
  constructor
  · refine ⟨by decide, by decide, by decide⟩
  · intro g x y hxy
    unfold dmWeight
    rw [if_neg hxy]
    by_cases h : (dmHas g x && dmHas g y) = true
    · rw [if_pos h]
      simp only [Bool.and_eq_true] at h
      simp [h.1, h.2]
    · rw [if_neg h]
      simp only [Bool.and_eq_true] at h
      simpa using h

/-- Witness for C1's amended general clause at a concrete out-of-range
pair. -/
theorem dense_weight_roundtrip_amended_witness :
    (dmWeight (newDirectedMatrix 4 0 0 (-1)) 0 5).2 = false :=
  (dense_weight_roundtrip_amended.2 (newDirectedMatrix 4 0 0 (-1)) 0 5
    (by decide)).mpr (by decide)

/-- C3 counterexample: on the dense store with one node,
`Degree(1)` — an absent id — panics inside `mat64.At` (result `none`)
instead of returning zero. -/
theorem dense_degree_panics :
    dmDegree (newDirectedMatrix 1 0 0 (-1)) 1 = none ∧
      ¬ dmDegree (newDirectedMatrix 1 0 0 (-1)) 1 = some 0 := by
  refine ⟨by decide, by decide⟩

/-- C3 amended: for the two sparse stores, `From`, `To` (where provided)
and `Degree` on an absent node id return empty/zero without failing (for
the directed store under the row well-formedness every reachable store
has); for the dense store `From` and `To` return empty, but `Degree` on an
absent (out-of-range) id panics whenever the store has at least one
node. -/
theorem absent_node_queries_amended :
    (∀ (g : DirSt) (id : Int), wfD g = true → dirHas g id = false →
      dirFrom g id = [] ∧ dirTo g id = [] ∧ dirDegree g id = 0) ∧
    (∀ (g : UndirSt) (id : Int), undirHas g id = false →
      undirFrom g id = [] ∧ undirDegree g id = 0) ∧
    (∀ (g : DirectedMatrix) (id : Int), dmHas g id = false →
      dmFrom g id = [] ∧ dmTo g id = []) ∧
    (∀ (g : DirectedMatrix) (id : Int), 1 ≤ g.rows → dmHas g id = false →
      dmDegree g id = none) := by
  refine ⟨?_, ?_, ?_, ?_⟩
  · intro g id hwf hhas
    have hnodes : mhas g.nodes id = false := hhas
    have hrow : mget g.from_ id = none := by
      cases hr : mget g.from_ id with
      | none => rfl
      | some inner =>
        exfalso
        have hmem : id ∈ mkeys g.from_ := (mem_mkeys g.from_ id).2 (by rw [hr]; rfl)
        have hwf1 : ((mkeys g.from_).all (fun k => mhas g.nodes k)) = true := by
          have h2 : ((mkeys g.from_).all (fun k => mhas g.nodes k) &&
              (mkeys g.to_).all (fun k => mhas g.nodes k)) = true := hwf
          exact (Bool.and_eq_true _ _ ▸ h2).1
        have := List.all_eq_true.1 hwf1 id hmem
        rw [hnodes] at this
        cases this
    refine ⟨?_, ?_, ?_⟩
    · unfold dirFrom
      rw [hrow]
    · unfold dirTo
      rw [hrow]
    · unfold dirDegree
      rw [if_pos (by simp [hnodes])]
  · intro g id hhas
    constructor
    · unfold undirFrom
      rw [if_pos (by simp [hhas])]
    · unfold undirDegree
      have hnodes : mhas g.nodes id = false := hhas
      rw [if_pos (by simp [hnodes])]
  · intro g id hhas
    constructor
    · unfold dmFrom
      rw [if_pos (by simp [hhas])]
    · unfold dmTo
      rw [if_pos (by simp [hhas])]
  · intro g id hrows hhas
    have hid' : ¬(0 ≤ id ∧ id < (g.rows : Int)) := by
      intro hcon
      unfold dmHas at hhas
      simp only [Bool.and_eq_false_iff, decide_eq_false_iff_not] at hhas
      rcases hhas with h | h
      · exact h hcon.1
      · exact h hcon.2
    have hAt : dmAt g id 0 = none := by
      unfold dmAt
      rw [if_neg]
      intro hcon
      exact hid' ⟨hcon.1, hcon.2.1⟩
    have hne : ¬(((0 : Nat) : Int) = id) := by
      intro h0
      apply hid'
      refine ⟨by omega, ?_⟩
      have : (1 : Int) ≤ (g.rows : Int) := by exact_mod_cast hrows
      omega
    obtain ⟨m, hm⟩ : ∃ m, g.rows = m + 1 := ⟨g.rows - 1, by omega⟩
    unfold dmDegree
    rw [hm, List.range_succ_eq_map, foldlM_cons_option]
    have hAt0 : dmAt g id ((0 : Nat) : Int) = none := by
      simpa using hAt
    rw [if_neg hne, hAt0]
    rfl

/-- Witness for C3's amended query behaviour at concrete absent ids. -/
theorem absent_node_queries_amended_witness :
    (dirFrom (newDirectedGraph 0 0) 7 = [] ∧ dirTo (newDirectedGraph 0 0) 7 = [] ∧
      dirDegree (newDirectedGraph 0 0) 7 = 0) ∧
    (undirFrom (newUndirectedGraph 0 0) 7 = [] ∧ undirDegree (newUndirectedGraph 0 0) 7 = 0) ∧
    (dmFrom (newDirectedMatrix 2 0 0 (-1)) 5 = [] ∧ dmTo (newDirectedMatrix 2 0 0 (-1)) 5 = []) ∧
    dmDegree (newDirectedMatrix 2 0 0 (-1)) 5 = none :=
  ⟨absent_node_queries_amended.1 (newDirectedGraph 0 0) 7 (by decide) (by decide),
   absent_node_queries_amended.2.1 (newUndirectedGraph 0 0) 7 (by decide),
   absent_node_queries_amended.2.2.1 (newDirectedMatrix 2 0 0 (-1)) 5 (by decide),
   absent_node_queries_amended.2.2.2 (newDirectedMatrix 2 0 0 (-1)) 5 (by decide) (by decide)⟩

/-- C4 counterexample: writing `7` at cell `(0, 1)` through the matrix
returned by `Matrix()` changes the store's observable `Weight(0, 1)` from
`(0.0, true)` to `(7.0, true)` — the returned matrix is not a defensive
copy of the data. -/
theorem matrix_view_write_changes_store :
    dmWeight c4st 0 1 = ((7 : ℚ), true) ∧
      dmWeight (newDirectedMatrix 2 0 0 (-1)) 0 1 = ((0 : ℚ), true) ∧
      dmWeight c4st 0 1 ≠ dmWeight (newDirectedMatrix 2 0 0 (-1)) 0 1 := by
  refine ⟨by decide, by decide, by decide⟩

/-- C4 amended: the matrix returned by `Matrix()` shares the store's
backing data — only the dimensions are protected.  An in-range write of `v`
at `(i, j)` through the returned matrix leaves the dimensions unchanged but
changes the store so that `Weight(i, j)` (for `i ≠ j`) afterwards returns
`(v, true)`. -/
theorem matrix_view_shares_backing (g : DirectedMatrix) (i j : Int) (v : ℚ)
    (g' : DirectedMatrix) (hlen : g.mat.length = g.rows * g.rows)
    (hok : dmMatrixSet g i j v = .ok g') :
    g'.rows = g.rows ∧ (i ≠ j → dmWeight g' i j = (v, true)) := by
  unfold dmMatrixSet at hok
  by_cases h : 0 ≤ i ∧ i < (g.rows : Int) ∧ 0 ≤ j ∧ j < (g.rows : Int)
  · rw [if_pos h] at hok
    cases hok
    refine ⟨rfl, ?_⟩
    intro hij
    unfold dmWeight
    rw [if_neg hij]
    have hcond : (dmHas { g with mat := g.mat.set (i.toNat * g.rows + j.toNat) v } i &&
        dmHas { g with mat := g.mat.set (i.toNat * g.rows + j.toNat) v } j) = true := by
      simp [dmHas, h.1, h.2.1, h.2.2.1, h.2.2.2]
    rw [if_pos hcond]
    have hidx : i.toNat * g.rows + j.toNat < g.mat.length := by
      rw [hlen]
      have hi : i.toNat < g.rows := by omega
      have hj : j.toNat < g.rows := by omega
      calc i.toNat * g.rows + j.toNat < i.toNat * g.rows + g.rows := by omega
        _ = (i.toNat + 1) * g.rows := by ring
        _ ≤ g.rows * g.rows := Nat.mul_le_mul_right g.rows hi
    have hat : dmAt { g with mat := g.mat.set (i.toNat * g.rows + j.toNat) v } i j
        = some v := by
      unfold dmAt
      rw [if_pos ⟨h.1, h.2.1, h.2.2.1, h.2.2.2⟩]
      exact List.get?_set_eq_of_lt v hidx
    rw [hat]
    rfl
  · rw [if_neg h] at hok
    cases hok

/-- Witness for C4's amended sharing behaviour at the concrete store of the
counterexample. -/
theorem matrix_view_shares_backing_witness :
    c4st.rows = (newDirectedMatrix 2 0 0 (-1)).rows ∧ dmWeight c4st 0 1 = ((7 : ℚ), true) :=
  have h := matrix_view_shares_backing (newDirectedMatrix 2 0 0 (-1)) 0 1 7 c4st
    (by rfl) (by rfl)
  ⟨h.1, h.2 (by decide)⟩

/-- C7 (evaluation at the failing input): copying the undirected graph with
the single edge `{F:0, T:1}` into an empty directed store succeeds and adds
both nodes, but only the direction `0→1` is present afterwards —
`HasEdgeFromTo(1, 0)` is false, although `Copy`'s documentation promises
both directions.  The collision half of the claim does hold: copying into a
destination already holding node id 0 panics with the node-ID-collision
message. -/
theorem copy_undirected_loses_reverse_direction :
    c7out.map (fun d => (dirHas d 0, dirHas d 1, dirHasEdgeFromTo d 0 1,
        dirHasEdgeFromTo d 1 0)) = some (true, true, true, false) ∧
      c7collMsg = some "simple: node ID collision" := by
  refine ⟨by rfl, by rfl⟩

/-- C8: in the sparse undirected store, for every starting store and edge
`e` with distinct endpoints, after a successful `SetEdge(e)` both
`EdgeBetween(F, T)` and `EdgeBetween(T, F)` return `e`, and after a
subsequent `RemoveEdge(e)` both return absent (`nil`). -/
theorem undirected_edge_between_roundtrip (g : UndirSt) (e : GEdge) (g1 : UndirSt)
    (hne : e.f ≠ e.t) (hok : undirSetEdge g e = .ok g1) :
    undirEdgeBetween g1 e.f e.t = some e ∧ undirEdgeBetween g1 e.t e.f = some e ∧
      undirEdgeBetween (undirRemoveEdge g1 e) e.f e.t = none ∧
      undirEdgeBetween (undirRemoveEdge g1 e) e.t e.f = none := by
  unfold undirSetEdge at hok
  rw [if_neg hne] at hok
  have hok2 : undirSetEdgeAssign
      (if mhas (if mhas g.nodes e.f then g else undirAddNodeRaw g e.f).nodes e.t
        then (if mhas g.nodes e.f then g else undirAddNodeRaw g e.f)
        else undirAddNodeRaw (if mhas g.nodes e.f then g else undirAddNodeRaw g e.f) e.t)
      e = .ok g1 := hok
  have hg1f : mhas (if mhas g.nodes e.f then g else undirAddNodeRaw g e.f).nodes e.f
      = true := by
    by_cases hf : mhas g.nodes e.f = true
    · simp [hf]
    · rw [if_neg (by simp [hf]), mhas_undirAddNodeRaw]
      simp
  set gA := if mhas g.nodes e.f then g else undirAddNodeRaw g e.f with hgAdef
  have hg2f : mhas (if mhas gA.nodes e.t then gA else undirAddNodeRaw gA e.t).nodes e.f
      = true := by
    by_cases ht : mhas gA.nodes e.t = true
    · simpa [ht] using hg1f
    · rw [if_neg (by simp [ht]), mhas_undirAddNodeRaw]
      simp [hg1f]
  have hg2t : mhas (if mhas gA.nodes e.t then gA else undirAddNodeRaw gA e.t).nodes e.t
      = true := by
    by_cases ht : mhas gA.nodes e.t = true
    · simp [ht]
    · rw [if_neg (by simp [ht]), mhas_undirAddNodeRaw]
      simp
  set g2 := if mhas gA.nodes e.t then gA else undirAddNodeRaw gA e.t with hg2def
  cases hfi : mget g2.edges e.f with
  | none =>
    rw [undirSetEdgeAssign_err1 g2 e hfi] at hok2
    cases hok2
  | some fi =>
    cases hti : mget (minsert g2.edges e.f (minsert fi e.t e)) e.t with
    | none =>
      rw [undirSetEdgeAssign_err2 g2 e fi hfi hti] at hok2
      cases hok2
    | some ti =>
      rw [undirSetEdgeAssign_ok g2 e fi ti hfi hti] at hok2
      cases hok2
      have hfw : mget2 (minsert (minsert g2.edges e.f (minsert fi e.t e)) e.t
          (minsert ti e.f e)) e.f e.t = some e := by
        rw [mget2_minsert, if_neg hne]
        rw [mget2_minsert, if_pos rfl, mget_minsert, if_pos rfl]
      have hbw : mget2 (minsert (minsert g2.edges e.f (minsert fi e.t e)) e.t
          (minsert ti e.f e)) e.t e.f = some e := by
        rw [mget2_minsert, if_pos rfl, mget_minsert, if_pos rfl]
      refine ⟨?_, ?_, ?_, ?_⟩
      · show undirEdgeBetween { g2 with
          edges := minsert (minsert g2.edges e.f (minsert fi e.t e)) e.t
            (minsert ti e.f e) } e.f e.t = some e
        unfold undirEdgeBetween
        rw [if_neg (by simp [undirHas, hg2f])]
        exact hfw
      · show undirEdgeBetween { g2 with
          edges := minsert (minsert g2.edges e.f (minsert fi e.t e)) e.t
            (minsert ti e.f e) } e.t e.f = some e
        unfold undirEdgeBetween
        rw [if_neg (by simp [undirHas, hg2t])]
        exact hbw
      · show undirEdgeBetween (undirRemoveEdge { g2 with
          edges := minsert (minsert g2.edges e.f (minsert fi e.t e)) e.t
            (minsert ti e.f e) } e) e.f e.t = none
        unfold undirRemoveEdge
        rw [if_neg (by simp [hg2f]), if_neg (by simp [hg2t])]
        unfold undirEdgeBetween
        rw [if_neg (by simp [undirHas, hg2f])]
        show mget2 (mmodify (mmodify (minsert (minsert g2.edges e.f (minsert fi e.t e))
            e.t (minsert ti e.f e)) e.f (fun inner => merase inner e.t)) e.t
            (fun inner => merase inner e.f)) e.f e.t = none
        rw [mget2_mmodify_erase, if_neg (by intro hcon; exact hne hcon.1)]
        rw [mget2_mmodify_erase, if_pos ⟨rfl, rfl⟩]
      · show undirEdgeBetween (undirRemoveEdge { g2 with
          edges := minsert (minsert g2.edges e.f (minsert fi e.t e)) e.t
            (minsert ti e.f e) } e) e.t e.f = none
        unfold undirRemoveEdge
        rw [if_neg (by simp [hg2f]), if_neg (by simp [hg2t])]
        unfold undirEdgeBetween
        rw [if_neg (by simp [undirHas, hg2t])]
        show mget2 (mmodify (mmodify (minsert (minsert g2.edges e.f (minsert fi e.t e))
            e.t (minsert ti e.f e)) e.f (fun inner => merase inner e.t)) e.t
            (fun inner => merase inner e.f)) e.t e.f = none
        rw [mget2_mmodify_erase, if_pos ⟨rfl, rfl⟩]

/-- Witness for C8 at the empty store and the edge `0 → 1`. -/
theorem undirected_edge_between_roundtrip_witness :
    undirEdgeBetween c8w 0 1 = some ⟨0, 1, 3⟩ ∧
      undirEdgeBetween c8w 1 0 = some ⟨0, 1, 3⟩ ∧
      undirEdgeBetween (undirRemoveEdge c8w ⟨0, 1, 3⟩) 0 1 = none ∧
      undirEdgeBetween (undirRemoveEdge c8w ⟨0, 1, 3⟩) 1 0 = none :=
  undirected_edge_between_roundtrip (newUndirectedGraph 0 0) ⟨0, 1, 3⟩ c8w
    (by decide) (by rfl)

end GraphModel
